import Mathlib

/-!  A shallow embedding of the SELFIES v1.0.4 decoder
(`terminator/selfies.py`) together with proofs about the claims of its
specification.  Python strings are modelled as `List Char`, the process-wide
constraint table is threaded explicitly, and Python exceptions are modelled
with `Except PyErr`. -/

namespace Selfies

/-- Python exception classes relevant to the decoder: `ValueError` (the only
class caught by `decoder`), `IndexError` (out-of-range indexing), `KeyError`
(failing dict subscript), plus `fuel`, a marker for the explicit loop bound of
the derivation walker (the bound is chosen large enough that it is never
reached on an actual run; see `derive`). -/
inductive PyErr where
  | valueError (msg : String)
  | indexError
  | keyError
  | fuel
deriving DecidableEq, Repr

instance {ε α : Type} [DecidableEq ε] [DecidableEq α] : DecidableEq (Except ε α) := fun x y =>
  match x, y with
  | .ok a, .ok b => if h : a = b then isTrue (by simp [h]) else isFalse (by simp [h])
  | .error a, .error b => if h : a = b then isTrue (by simp [h]) else isFalse (by simp [h])
  | .ok _, .error _ => isFalse (by simp)
  | .error _, .ok _ => isFalse (by simp)

/-- Python `s[i]` for a non-negative index: `IndexError` when out of range. -/
def pyGet (s : List Char) (i : Nat) : Except PyErr Char :=
  match s.get? i with
  | some c => .ok c
  | none => .error .indexError

/-- Python `s[i]` for a possibly negative index (negative indices count from
the end of the string). -/
def pyGetI (s : List Char) (i : Int) : Except PyErr Char :=
  let j : Int := if i < 0 then i + (s.length : Int) else i
  if 0 ≤ j ∧ j < (s.length : Int) then pyGet s j.toNat else .error .indexError

/-- Resolve one bound of a Python slice `s[a:b]` (clamping semantics). -/
def pyBound (n : Nat) (i : Int) : Nat :=
  if i < 0 then (max 0 (i + (n : Int))).toNat else min i.toNat n

/-- Python slice `s[a:b]` (never raises; clamps out-of-range bounds). -/
def pySlice (s : List Char) (a b : Int) : List Char :=
  (s.take (pyBound s.length b)).drop (pyBound s.length a)

/-- Python `l[i]` on a list, with negative-index wrap-around. -/
def pyNth {α : Type} (l : List α) (i : Int) : Except PyErr α :=
  let j : Int := if i < 0 then i + (l.length : Int) else i
  if 0 ≤ j ∧ j < (l.length : Int) then
    match l.get? j.toNat with
    | some a => .ok a
    | none => .error .indexError
  else .error .indexError

/-- Python `l[i] = f(l[i])`, the in-place mutation of one list element. -/
def pyModify {α : Type} (l : List α) (i : Int) (f : α → α) : Except PyErr (List α) :=
  let j : Int := if i < 0 then i + (l.length : Int) else i
  if 0 ≤ j ∧ j < (l.length : Int) then
    match l.get? j.toNat with
    | some a => .ok (l.set j.toNat (f a))
    | none => .error .indexError
  else .error .indexError

/-- Python `int(c)` on a single character: `ValueError` unless it is a digit. -/
def pyIntChar (c : Char) : Except PyErr Int :=
  if c.isDigit then .ok ((c.toNat : Int) - 48) else .error (.valueError "invalid literal for int")

/-- Value of a decimal digit character. -/
def charDigit (c : Char) : Int := (c.toNat : Int) - 48

/-- Python `int(s)` on a (non-empty) string of decimal digits. -/
def digitsVal (s : List Char) : Int := s.foldl (fun acc c => acc * 10 + charDigit c) 0

/-- Python substring test `needle in hay`. -/
def containsSub (needle : List Char) : List Char → Bool
  | [] => needle.isEmpty
  | c :: t => needle.isPrefixOf (c :: t) || containsSub needle t

-- Constraint tables ---------------------------------------------------------

/-- A bond-constraint table: a Python dict from atom-or-ion key to maximum
bond count, modelled as an insertion-ordered association list. -/
abbrev Table := List (String × Int)

/-- Dict membership `k in t`. -/
def tableHasKey : Table → String → Bool
  | [], _ => false
  | p :: rest, k => if p.1 = k then true else tableHasKey rest k

/-- Dict lookup returning `none` when the key is absent. -/
def tableFind : Table → String → Option Int
  | [], _ => none
  | p :: rest, k => if p.1 = k then some p.2 else tableFind rest k

/-- Python `t[k]` (raises `KeyError` when absent). -/
def pyDictGet (t : Table) (k : String) : Except PyErr Int :=
  match tableFind t k with
  | some v => .ok v
  | none => .error .keyError

/-- Python `t.get(k, d)`. -/
def pyDictGetD (t : Table) (k : String) (d : Int) : Int := (tableFind t k).getD d

/-- Python `t[k] = v` on a dict: overwrite in place, or append a new entry. -/
def tableSet (t : Table) (k : String) (v : Int) : Table :=
  if tableHasKey t k then t.map (fun p => if p.1 = k then (p.1, v) else p)
  else t ++ [(k, v)]

/-- Python `t.update(kvs)`. -/
def tableUpdate (t : Table) (kvs : List (String × Int)) : Table :=
  kvs.foldl (fun acc p => tableSet acc p.1 p.2) t

/-- The `default_bond_constraints` table of the source. -/
def default_bond_constraints : Table :=
  [("H", 1), ("F", 1), ("Cl", 1), ("Br", 1), ("I", 1),
   ("O", 2), ("O+1", 3), ("O-1", 1),
   ("N", 3), ("N+1", 4), ("N-1", 2),
   ("C", 4), ("C+1", 5), ("C-1", 3),
   ("P", 5), ("P+1", 6), ("P-1", 4),
   ("S", 6), ("S+1", 7), ("S-1", 5),
   ("?", 8)]

/-- The `octet_rule_bond_constraints` table (default, then updated). -/
def octet_rule_bond_constraints : Table :=
  tableUpdate default_bond_constraints
    [("S", 2), ("S+1", 3), ("S-1", 1), ("P", 3), ("P+1", 4), ("P-1", 2)]

/-- The `hypervalent_bond_constraints` table (default, then updated). -/
def hypervalent_bond_constraints : Table :=
  tableUpdate default_bond_constraints [("Cl", 7), ("Br", 7), ("I", 7), ("N", 5)]

/-- First entry of `bc.items()` whose value is outside `[1, 8]`, if any
(Python iterates the dict and raises at the first offending value). -/
def findBadValue : Table → Option (String × Int)
  | [] => none
  | p :: rest => if ¬(1 ≤ p.2 ∧ p.2 ≤ 8) then some p else findBadValue rest

/-- `set_semantic_constraints`: validates the argument and returns the table
that becomes the new active table.  An `Except.error` models the Python
`ValueError` being raised before the global assignment, leaving the active
table unchanged (the caller keeps its previous table in that case). -/
def set_semantic_constraints (bond_constraints : Option Table) : Except PyErr Table :=
  match bond_constraints with
  | none => .ok default_bond_constraints
  | some bc =>
    if tableHasKey bc "?" then
      match findBadValue bc with
      | some _ => .error (.valueError "bond_constraints value not between 1 and 8 inclusive")
      | none => .ok bc
    else .error (.valueError "bond_constraints missing ? as a key")

-- Helper functions (bond orders) --------------------------------------------

/-- `get_num_from_bond`: bond multiplicity of a SMILES bond symbol. -/
def get_num_from_bond (bond_symbol : List Char) : Int :=
  if bond_symbol = "=".data then 2
  else if bond_symbol = "#".data then 3
  else 1

/-- `get_bond_from_num`: Python tuple indexing
`('', '=', '#')[n - 1]` (negative indices wrap; other out-of-range indices
raise `IndexError`). -/
def get_bond_from_num (n : Int) : Except PyErr (List Char) :=
  pyNth [([] : List Char), "=".data, "#".data] (n - 1)

-- Atom symbol grammar --------------------------------------------------------

/-- The Python loop `while s[i].isdigit(): i += 1`, started at absolute index
`i` with `rest = s.drop i`; running past the end raises `IndexError` (the loop
condition indexes the string). -/
def digitRun : List Char → Nat → Except PyErr Nat
  | [], _ => .error .indexError
  | c :: cs, i => if c.isDigit then digitRun cs (i + 1) else .ok i

/-- The Python loop accumulating `+`/`-` charge characters
(`while s[i] in ('+', '-'): charge += ±1; i += 1`), started on the suffix of
the symbol; running past the end raises `IndexError`. -/
def plusMinusRun : List Char → Int → Except PyErr Int
  | [], _ => .error .indexError
  | c :: cs, charge =>
    if c = '+' then plusMinusRun cs (charge + 1)
    else if c = '-' then plusMinusRun cs (charge - 1)
    else .ok charge

/-- `find_element`: indices of the element substring of a SMILES atom symbol. -/
def find_element (s : List Char) : Except PyErr (Nat × Nat) :=
  match pyGet s 0 with
  | .error e => .error e
  | .ok c0 =>
    if c0 ≠ '[' then .ok (0, s.length)
    else
      match digitRun (s.drop 1) 1 with
      | .error e => .error e
      | .ok i =>
        match pyGet s (i + 1) with
        | .error e => .error e
        | .ok c =>
          if c.isAlpha ∧ c ≠ 'H' then .ok (i, i + 2) else .ok (i, i + 1)

/-- `parse_atom_symbol`: element substring, hydrogen count and charge of a
SMILES atom symbol.  Malformed symbols raise `IndexError` exactly where the
Python code indexes out of range. -/
def parse_atom_symbol (s : List Char) : Except PyErr (List Char × Int × Int) :=
  match pyGet s 0 with
  | .error e => .error e
  | .ok c0 =>
  if c0 ≠ '[' then .ok (s, 0, 0)
  else
  match find_element s with
  | .error e => .error e
  | .ok (atom_start, atom_end) =>
  match pyGet s atom_end with
  | .error e => .error e
  | .ok c1 =>
  let i1 := if c1 = '@' then atom_end + 1 else atom_end
  match pyGet s i1 with
  | .error e => .error e
  | .ok c2 =>
  let i2 := if c2 = '@' then i1 + 1 else i1
  match pyGet s i2 with
  | .error e => .error e
  | .ok cH =>
  let hRes : Except PyErr (Int × Nat) :=
    if cH = 'H' then
      match pyGet s (i2 + 1) with
      | .error e => .error e
      | .ok cd => if cd.isDigit then .ok (charDigit cd, i2 + 2) else .ok (1, i2 + 1)
    else .ok (0, i2)
  match hRes with
  | .error e => .error e
  | .ok (h_count, i3) =>
  match pyGet s i3 with
  | .error e => .error e
  | .ok cc =>
  let cRes : Except PyErr Int :=
    if cc = '+' ∨ cc = '-' then
      let sign : Int := if cc = '+' then 1 else -1
      match pyGet s (i3 + 1) with
      | .error e => .error e
      | .ok cn =>
        if cn = '+' ∨ cn = '-' then plusMinusRun (s.drop (i3 + 1)) sign
        else if cn.isDigit then
          match digitRun (s.drop (i3 + 1)) (i3 + 1) with
          | .error e => .error e
          | .ok j => .ok (sign * digitsVal (pySlice s ((i3 + 1 : Nat) : Int) (j : Int)))
        else .ok sign
    else .ok 0
  match cRes with
  | .error e => .error e
  | .ok charge => .ok (pySlice s (atom_start : Int) (atom_end : Int), h_count, charge)

-- Derivation state rules ------------------------------------------------------

/-- Python `"{:+}".format(charge)` for a non-zero charge. -/
def formatSigned (charge : Int) : List Char :=
  (if 0 ≤ charge then "+" else "-").data ++ (toString charge.natAbs).data

/-- The bond-character extraction and `expl]`-stripping step at the top of
`get_next_state`: the optional leading bond character of the SELFIES symbol
and the SMILES atom symbol derived from it. -/
def symbolToSmiles (symbol : List Char) : Except PyErr (List Char × List Char) :=
  match pyGet symbol 1 with
  | .error e => .error e
  | .ok c1 =>
    let bond : List Char := if c1 = '/' ∨ c1 = '\\' ∨ c1 = '=' ∨ c1 = '#' then [c1] else []
    if pySlice symbol (-5) (symbol.length : Int) = "expl]".data then
      .ok (bond, '[' :: (pySlice symbol ((1 + bond.length : Nat) : Int) (-5) ++ [']']))
    else
      .ok (bond, pySlice symbol ((1 + bond.length : Nat) : Int) (-1))

/-- `get_next_state`: grammar rule for standard (non-branch, non-ring) SELFIES
symbols; returns the derived SMILES fragment and the next derivation state. -/
def get_next_state (tbl : Table) (symbol : List Char) (state : Int) :
    Except PyErr (List Char × Int) :=
  if symbol = "[epsilon]".data then
    (if state = 0 then .ok ([], 0) else .ok ([], -1))
  else
  match symbolToSmiles symbol with
  | .error e => .error e
  | .ok (bond, smiles_symbol) =>
  let bond_num := get_num_from_bond bond
  match parse_atom_symbol smiles_symbol with
  | .error e => .error e
  | .ok (element, h_count, charge) =>
  let atom_or_ion := if charge = 0 then element else element ++ formatSigned charge
  match pyDictGet tbl "?" with
  | .error e => .error e
  | .ok dflt =>
  let max_bonds := pyDictGetD tbl (String.mk atom_or_ion) dflt
  if h_count > max_bonds ∨ (h_count = max_bonds ∧ state > 0) then
    .error (.valueError "too many Hs in symbol; consider adjusting bond constraints")
  else
  let mb := max_bonds - h_count
  if state = 0 then .ok (smiles_symbol, mb)
  else
    if bond_num > min state mb then
      match get_bond_from_num (min state mb) with
      | .error e => .error e
      | .ok bond2 =>
        let ns := mb - min state mb
        .ok (bond2 ++ smiles_symbol, if ns = 0 then -1 else ns)
    else
      let ns := mb - bond_num
      .ok (bond ++ smiles_symbol, if ns = 0 then -1 else ns)

/-- `get_next_branch_state`: grammar rule for SELFIES branch symbols.  The
digit decoded from the second-to-last character (`X` in `[BranchL_X]`) drives
the state split. -/
def get_next_branch_state (branch_symbol : List Char) (state : Int) :
    Except PyErr (Int × Int) :=
  match pyGetI branch_symbol (-2) with
  | .error e => .error e
  | .ok c =>
  match pyIntChar c with
  | .error e => .error e
  | .ok branch_type =>
  if ¬(1 ≤ branch_type ∧ branch_type ≤ 3) then
    .error (.valueError "unknown branch symbol")
  else if 2 ≤ state ∧ state ≤ 8 then
    .ok (min (state - 1) branch_type, state - min (state - 1) branch_type)
  else .ok (-1, state)

-- Index codec -----------------------------------------------------------------

/-- `_index_alphabet`: the fixed ordered 16-symbol alphabet of the index
codec. -/
def _index_alphabet : List (List Char) :=
  ["[C]".data, "[Ring1]".data, "[Ring2]".data,
   "[Branch1_1]".data, "[Branch1_2]".data, "[Branch1_3]".data,
   "[Branch2_1]".data, "[Branch2_2]".data, "[Branch2_3]".data,
   "[O]".data, "[N]".data, "[=N]".data, "[=C]".data, "[#C]".data,
   "[S]".data, "[P]".data]

/-- Position of a symbol in an alphabet list (the `_alphabet_code` dict). -/
def idxOfSym : List (List Char) → List Char → Nat → Option Nat
  | [], _, _ => none
  | x :: xs, c, i => if x = c then some i else idxOfSym xs c (i + 1)

/-- `_alphabet_code.get(c, 0)`: the code of a symbol, `0` if unrecognized. -/
def alphabetCode (c : List Char) : Nat := (idxOfSym _index_alphabet c 0).getD 0

/-- The accumulation loop of `get_n_from_symbols`: sum of
`code(c) * base ^ i` over the already-reversed symbol list, `i` counting up
from the given start. -/
def nAux : List (List Char) → Nat → Nat
  | [], _ => 0
  | c :: cs, i => alphabetCode c * _index_alphabet.length ^ i + nAux cs (i + 1)

/-- `get_n_from_symbols`: the integer encoded by a symbol list
(most-significant symbol first). -/
def get_n_from_symbols (symbols : List (List Char)) : Nat := nAux symbols.reverse 0

/-- The `while n: symbols.append(alphabet[n % base]); n //= base` loop of
`get_symbols_from_n` (least-significant digit first). -/
def symsAux (n : Nat) : List (List Char) :=
  if h : n = 0 then []
  else
    _index_alphabet.getD (n % _index_alphabet.length) [] ::
      symsAux (n / _index_alphabet.length)
termination_by n
decreasing_by
  exact Nat.div_lt_self (Nat.pos_of_ne_zero h) (by decide)

/-- `get_symbols_from_n`: the symbol list encoding an integer
(most-significant first; `0` maps to the single first alphabet symbol). -/
def get_symbols_from_n (n : Nat) : List (List Char) :=
  if n = 0 then [_index_alphabet.getD 0 []]
  else (symsAux n).reverse

-- Symbol stream ----------------------------------------------------------------

/-- A ring request: (left derived index, right derived index, bond symbol). -/
abbrev RingTup := Int × Int × List Char

/-- A derived-atom record: output fragment (with leading bond character),
remaining bond capacity, and the index of the bonding parent (`-1` if none). -/
structure DAtom where
  frag : List Char
  cap : Int
  parent : Int
deriving DecidableEq, Repr

/-- The lazy symbol generator `_parse_selfies`: the tokens it will yield, plus
the pending `ValueError` it will raise after the last of them (if the fragment
is malformed).  Once `toks` is exhausted and no error is pending, the
generator yields the empty string forever. -/
structure Stream' where
  toks : List (List Char)
  tailErr : Option PyErr
deriving DecidableEq, Repr

/-- Python `next(gen)`: the next token, the empty string after exhaustion, or
the pending error raised at the pull that reaches it. -/
def next' (s : Stream') : Except PyErr (List Char × Stream') :=
  match s.toks with
  | t :: ts => .ok (t, ⟨ts, s.tailErr⟩)
  | [] =>
    match s.tailErr with
    | some e => .error e
    | none => .ok ([], s)

/-- Pull `k` tokens in order (`for _ in range(k): xs.append(next(gen))`). -/
def pullSyms : Stream' → Nat → Except PyErr (List (List Char) × Stream')
  | s, 0 => .ok ([], s)
  | s, k + 1 =>
    match next' s with
    | .error e => .error e
    | .ok (c, s1) =>
      match pullSyms s1 k with
      | .error e => .error e
      | .ok (cs, s2) => .ok (c :: cs, s2)

/-- The tokenizing loop of `_parse_selfies` on the remaining characters.
The second argument is `none` between tokens and `some acc` while inside an
open bracket.  Returns the tokens yielded (skipping `[nop]`) and the pending
error, if the fragment is malformed. -/
def tokLoop : List Char → Option (List Char) → List (List Char) × Option PyErr
  | [], none => ([], none)
  | [], some _ =>
    ([], some (.valueError "malformed SELIFES, misplaced or missing brackets"))
  | c :: cs, none =>
    if c ≠ '[' then
      ([], some (.valueError "malformed SELIFES, misplaced or missing brackets"))
    else tokLoop cs (some [])
  | c :: cs, some acc =>
    if c = ']' then
      let sym := '[' :: (acc ++ [']'])
      let rest := tokLoop cs none
      (if sym = "[nop]".data then rest.1 else sym :: rest.1, rest.2)
    else tokLoop cs (some (acc ++ [c]))

/-- `_parse_selfies`: characters before the first `[` are skipped by the
initial `find`, then the fragment is tokenized. -/
def _parse_selfies (s : List Char) : Stream' :=
  let t := tokLoop (s.dropWhile (fun c => c ≠ '[')) none
  ⟨t.1, t.2⟩

-- Derivation walker -------------------------------------------------------------

/-- The output of the derivation walker: derived atoms, branch map (as an
insertion-ordered association list) and ring list. -/
abbrev DOut := List DAtom × List (Nat × Nat) × List RingTup

/-- Dict lookup in the branch map. -/
def branchLookup : List (Nat × Nat) → Nat → Option Nat
  | [], _ => none
  | p :: rest, k => if p.1 = k then some p.2 else branchLookup rest k

/-- The `while branch_start in branches: branch_start = branches[branch_start] + 1`
loop.  Registered branch ends are never smaller than their starts, so the key
strictly increases and the loop visits each of the finitely many distinct
keys at most once; a fuel of `branches.length + 1` therefore always suffices. -/
def resolveBranchStart (branches : List (Nat × Nat)) : Nat → Nat → Nat
  | start, 0 => start
  | start, f + 1 =>
    match branchLookup branches start with
    | some e => resolveBranchStart branches (e + 1) f
    | none => start

/-- `derived[i][1] -= d` for a known-valid non-negative index (the walker only
decrements the capacity of the most recently derived atom, whose index is
always in range). -/
def capDec : List DAtom → Nat → Int → List DAtom
  | [], _, _ => []
  | a :: as, 0, d => ⟨a.frag, a.cap - d, a.parent⟩ :: as
  | a :: as, i + 1, d => a :: capDec as i d

/-- The `while` loop of `_translate_selfies_derive`.  `curr` is the symbol
pulled at the bottom of the previous iteration (or before the loop), and the
first argument is explicit fuel: the loop runs at most once per pulled symbol
and nested branch streams only ever shrink, so the entry fuel of
`2 * (token count) + 2` supplied by `derive` is never exhausted. -/
def deriveLoop (tbl : Table) :
    Nat → List Char → Stream' → Int → List DAtom → Int → List (Nat × Nat) →
      List RingTup → Except PyErr DOut
  | 0, _, _, _, _, _, _, _ => .error .fuel
  | Nat.succ f, curr, stream, state, derived, prev_idx, branches, rings =>
    if curr = [] ∨ state < 0 then .ok (derived, branches, rings)
    else if containsSub "Branch".data curr then
      -- Case 1: branch symbol
      match get_next_branch_state curr state with
      | .error e => .error e
      | .ok (branch_init_state, new_state) =>
        if state ≤ 1 then
          -- ignore, no symbols consumed
          match next' stream with
          | .error e => .error e
          | .ok (c2, s2) =>
            deriveLoop tbl f c2 s2 new_state derived prev_idx branches rings
        else
          match pyGetI curr (-4) with
          | .error e => .error e
          | .ok lc =>
          match pyIntChar lc with
          | .error e => .error e
          | .ok L =>
          match pullSyms stream L.toNat with
          | .error e => .error e
          | .ok (_L_symbols, s2) =>
          let N := get_n_from_symbols _L_symbols
          match pullSyms s2 (N + 1) with
          | .error e => .error e
          | .ok (branch_symbols, s3) =>
          let bstream : Stream' := ⟨branch_symbols.filter (fun t => t ≠ "[nop]".data), none⟩
          match next' bstream with
          | .error e => .error e
          | .ok (c0, bs0) =>
          match deriveLoop tbl f c0 bs0 branch_init_state derived prev_idx branches rings with
          | .error e => .error e
          | .ok (d2, b2, r2) =>
          let branch_start := derived.length
          let branch_end : Int := (d2.length : Int) - 1
          let bstart := resolveBranchStart b2 branch_start (b2.length + 1)
          let b3 := if (bstart : Int) ≤ branch_end then b2 ++ [(bstart, branch_end.toNat)] else b2
          match next' s3 with
          | .error e => .error e
          | .ok (c2, s4) => deriveLoop tbl f c2 s4 new_state d2 prev_idx b3 r2
    else if containsSub "Ring".data curr then
      -- Case 2: ring symbol (new_state = state)
      if state = 0 then
        match next' stream with
        | .error e => .error e
        | .ok (c2, s2) => deriveLoop tbl f c2 s2 state derived prev_idx branches rings
      else
        match pyGetI curr (-2) with
        | .error e => .error e
        | .ok lc =>
        match pyIntChar lc with
        | .error e => .error e
        | .ok L =>
        match pullSyms stream L.toNat with
        | .error e => .error e
        | .ok (_L_symbols, s2) =>
        let N : Int := (get_n_from_symbols _L_symbols : Nat)
        let left_idx := max 0 (prev_idx - (N + 1))
        let bondRes : Except PyErr (List Char) :=
          if pySlice curr 1 5 = "Expl".data then
            match pyGet curr 5 with
            | .error e => .error e
            | .ok bc => .ok [bc]
          else .ok []
        match bondRes with
        | .error e => .error e
        | .ok bond_symbol =>
        match next' s2 with
        | .error e => .error e
        | .ok (c2, s3) =>
          deriveLoop tbl f c2 s3 state derived prev_idx branches
            (rings ++ [(left_idx, prev_idx, bond_symbol)])
    else
      -- Case 3: regular symbol
      match get_next_state tbl curr state with
      | .error e => .error e
      | .ok (new_symbol, new_state) =>
        if new_symbol = [] then
          match next' stream with
          | .error e => .error e
          | .ok (c2, s2) =>
            deriveLoop tbl f c2 s2 new_state derived prev_idx branches rings
        else
          let d1 := derived ++ [⟨new_symbol, new_state, prev_idx⟩]
          let d2 :=
            if 0 ≤ prev_idx then
              capDec d1 prev_idx.toNat (get_num_from_bond (new_symbol.take 1))
            else d1
          match next' stream with
          | .error e => .error e
          | .ok (c2, s2) =>
            deriveLoop tbl f c2 s2 new_state d2 ((d1.length : Int) - 1) branches rings

/-- `_translate_selfies_derive`: pull the first symbol, then run the walker
loop with a fuel bound that the loop never exhausts. -/
def derive (tbl : Table) (stream : Stream') (init_state : Int) (derived : List DAtom)
    (prev_idx : Int) (branches : List (Nat × Nat)) (rings : List RingTup) :
    Except PyErr DOut :=
  match next' stream with
  | .error e => .error e
  | .ok (c, s1) =>
    deriveLoop tbl (2 * stream.toks.length + 2) c s1 init_state derived prev_idx branches rings

-- Ring resolver ------------------------------------------------------------------

/-- `OrderedDict` lookup in the resolved ring locations. -/
def locFind : List ((Int × Int) × List Char) → (Int × Int) → Option (List Char)
  | [], _ => none
  | p :: rest, k => if p.1 = k then some p.2 else locFind rest k

/-- `OrderedDict` assignment: updating an existing key keeps its position,
a new key is appended. -/
def locSet : List ((Int × Int) × List Char) → (Int × Int) → List Char →
    List ((Int × Int) × List Char)
  | [], k, v => [(k, v)]
  | p :: rest, k, v => if p.1 = k then (p.1, v) :: rest else p :: locSet rest k v

/-- Phase 1 of `_form_rings_bilocally`: bond accounting over the ring list in
source order, producing the mutated derived list and the resolved ring
locations. -/
def ringsPhase1 (derived : List DAtom) (ring_locs : List ((Int × Int) × List Char)) :
    List RingTup → Except PyErr (List DAtom × List ((Int × Int) × List Char))
  | [] => .ok (derived, ring_locs)
  | (left_idx, right_idx, bond_symbol) :: rest =>
    if left_idx = right_idx then ringsPhase1 derived ring_locs rest
    else
      match pyNth derived left_idx with
      | .error e => .error e
      | .ok left_end =>
      match pyNth derived right_idx with
      | .error e => .error e
      | .ok right_end =>
      let bond_num := get_num_from_bond bond_symbol
      if left_end.cap ≤ 0 ∨ right_end.cap ≤ 0 then ringsPhase1 derived ring_locs rest
      else
        let bnRes : Except PyErr (Int × List Char) :=
          if bond_num > min left_end.cap right_end.cap then
            match get_bond_from_num (min left_end.cap right_end.cap) with
            | .error e => .error e
            | .ok b => .ok (min left_end.cap right_end.cap, b)
          else .ok (bond_num, bond_symbol)
        match bnRes with
        | .error e => .error e
        | .ok (bond_num, bond_symbol) =>
        if left_idx = right_end.parent then
          -- ring between two atoms that are already directly bonded:
          -- upgrade the existing bond on the right atom's fragment
          let right_symbol := right_end.frag
          let old_bond : List Char :=
            match right_symbol with
            | c :: _ =>
              if c = '-' ∨ c = '/' ∨ c = '\\' ∨ c = '=' ∨ c = '#' then [c] else []
            | [] => []
          match get_bond_from_num (min (bond_num + get_num_from_bond old_bond) 3) with
          | .error e => .error e
          | .ok new_bond_symbol =>
          match pyModify derived right_idx
              (fun a => ⟨new_bond_symbol ++ a.frag.drop old_bond.length, a.cap, a.parent⟩) with
          | .error e => .error e
          | .ok d1 =>
          match pyModify d1 left_idx (fun a => ⟨a.frag, a.cap - bond_num, a.parent⟩) with
          | .error e => .error e
          | .ok d2 =>
          match pyModify d2 right_idx (fun a => ⟨a.frag, a.cap - bond_num, a.parent⟩) with
          | .error e => .error e
          | .ok d3 => ringsPhase1 d3 ring_locs rest
        else
          let locRes : Except PyErr (List ((Int × Int) × List Char)) :=
            match locFind ring_locs (left_idx, right_idx) with
            | some old =>
              match get_bond_from_num (min (bond_num + get_num_from_bond old) 3) with
              | .error e => .error e
              | .ok nb => .ok (locSet ring_locs (left_idx, right_idx) nb)
            | none => .ok (ring_locs ++ [((left_idx, right_idx), bond_symbol)])
          match locRes with
          | .error e => .error e
          | .ok ring_locs2 =>
          match pyModify derived left_idx (fun a => ⟨a.frag, a.cap - bond_num, a.parent⟩) with
          | .error e => .error e
          | .ok d1 =>
          match pyModify d1 right_idx (fun a => ⟨a.frag, a.cap - bond_num, a.parent⟩) with
          | .error e => .error e
          | .ok d2 => ringsPhase1 d2 ring_locs2 rest

/-- Phase 2 of `_form_rings_bilocally`: assign closure numbers sequentially
and append `bond + id` to both endpoint fragments. -/
def ringsPhase2 (derived : List DAtom) (ctr : Nat) :
    List ((Int × Int) × List Char) → Except PyErr (List DAtom)
  | [] => .ok derived
  | ((l, r), bond) :: rest =>
    let rid := toString ctr
    let ring_id : List Char := if rid.length = 2 then '%' :: rid.data else rid.data
    match pyModify derived l (fun a => ⟨a.frag ++ bond ++ ring_id, a.cap, a.parent⟩) with
    | .error e => .error e
    | .ok d1 =>
      match pyModify d1 r (fun a => ⟨a.frag ++ bond ++ ring_id, a.cap, a.parent⟩) with
      | .error e => .error e
      | .ok d2 => ringsPhase2 d2 (ctr + 1) rest

/-- `_form_rings_bilocally`: resolve the ring list against the derived atoms. -/
def _form_rings_bilocally (derived : List DAtom) (rings : List RingTup) :
    Except PyErr (List DAtom) :=
  match ringsPhase1 derived [] rings with
  | .error e => .error e
  | .ok (d2, ring_locs) => ringsPhase2 d2 1 ring_locs

-- Fragment translation and decoder -------------------------------------------------

/-- The branch-formatting loop of `_translate_selfies`: inject `(` at each
branch start and `)` at each branch end, in insertion order. -/
def applyBranches (derived : List DAtom) : List (Nat × Nat) → Except PyErr (List DAtom)
  | [] => .ok derived
  | (lb, rb) :: rest =>
    match pyModify derived (lb : Int) (fun a => ⟨'(' :: a.frag, a.cap, a.parent⟩) with
    | .error e => .error e
    | .ok d1 =>
      match pyModify d1 (rb : Int) (fun a => ⟨a.frag ++ [')'], a.cap, a.parent⟩) with
      | .error e => .error e
      | .ok d2 => applyBranches d2 rest

/-- `_translate_selfies`: translate one dot-free fragment into SMILES text. -/
def _translate_selfies (tbl : Table) (s : List Char) : Except PyErr (List Char) :=
  match derive tbl (_parse_selfies s) 0 [] (-1) [] [] with
  | .error e => .error e
  | .ok (derived, branches, rings) =>
    match _form_rings_bilocally derived rings with
    | .error e => .error e
    | .ok d2 =>
      match applyBranches d2 branches with
      | .error e => .error e
      | .ok d3 => .ok (d3.map (fun a => a.frag)).flatten

/-- Python `selfies.split(".")`. -/
def splitDots : List Char → List (List Char)
  | [] => [[]]
  | c :: cs =>
    let rest := splitDots cs
    if c = '.' then [] :: rest
    else
      match rest with
      | r :: rs => (c :: r) :: rs
      | [] => [[c]]

/-- Python `".".join(fragments)`. -/
def joinDots : List (List Char) → List Char
  | [] => []
  | [x] => x
  | x :: y :: rest => x ++ '.' :: joinDots (y :: rest)

/-- The fragment loop of `decoder`: translate each dot-separated fragment and
keep the non-empty results. -/
def translateAll (tbl : Table) : List (List Char) → Except PyErr (List (List Char))
  | [] => .ok []
  | s :: rest =>
    match _translate_selfies tbl s with
    | .error e => .error e
    | .ok sm =>
      match translateAll tbl rest with
      | .error e => .error e
      | .ok others => .ok (if sm = [] then others else sm :: others)

/-- The `try`/`except ValueError` body of `decoder`.  `tbl` is the (possibly
overridden) active table; when `doRestore` is set, the prior table `old` is
re-installed after success and after a caught `ValueError`.  A `ValueError`
raised by the restore itself is caught by the handler, whose own restore
raises the same error again, which then escapes; any non-`ValueError` escapes
with no restore at all.  The second component is the active table after the
call. -/
def decoderBody (tbl old : Table) (doRestore : Bool) (selfies : List Char) :
    Except PyErr (Option String) × Table :=
  match translateAll tbl (splitDots selfies) with
  | .ok frags =>
    if doRestore then
      match set_semantic_constraints (some old) with
      | .ok t => (.ok (some (String.mk (joinDots frags))), t)
      | .error e => (.error e, tbl)
    else (.ok (some (String.mk (joinDots frags))), tbl)
  | .error (.valueError _) =>
    if doRestore then
      match set_semantic_constraints (some old) with
      | .ok t => (.ok none, t)
      | .error e => (.error e, tbl)
    else (.ok none, tbl)
  | .error e => (.error e, tbl)

/-- `decoder`: translate a SELFIES string into a SMILES string.  The active
constraint table is passed in and the table active after the call is returned
alongside the outcome; `.ok none` is the `None` returned after a caught
`ValueError`, while `.error` is an exception escaping to the caller. -/
def decoder (active : Table) (selfies : String) (constraints : Option String) :
    Except PyErr (Option String) × Table :=
  match constraints with
  | none => decoderBody active active false selfies.data
  | some c =>
    if c = "octet_rule" then
      match set_semantic_constraints (some octet_rule_bond_constraints) with
      | .ok t => decoderBody t active true selfies.data
      | .error e => (.error e, active)
    else if c = "hypervalent" then
      match set_semantic_constraints (some hypervalent_bond_constraints) with
      | .ok t => decoderBody t active true selfies.data
      | .error e => (.error e, active)
    else (.error (.valueError "unrecognized constraint type"), active)

-- Supporting lemmas ---------------------------------------------------------------

lemma tableHasKey_iff (t : Table) (k : String) :
    tableHasKey t k = true ↔ ∃ p ∈ t, p.1 = k := by
  induction t with
  | nil => simp [tableHasKey]
  | cons p rest ih =>
    by_cases h : p.1 = k <;> simp [tableHasKey, h, ih]

lemma findBadValue_eq_none_iff (t : Table) :
    findBadValue t = none ↔ ∀ p ∈ t, 1 ≤ p.2 ∧ p.2 ≤ 8 := by
  induction t with
  | nil => simp [findBadValue]
  | cons p rest ih =>
    by_cases h : 1 ≤ p.2 ∧ p.2 ≤ 8 <;> simp [findBadValue, h, ih]

lemma findBadValue_some (t : Table) (p : String × Int) (h : findBadValue t = some p) :
    p ∈ t ∧ ¬(1 ≤ p.2 ∧ p.2 ≤ 8) := by
  induction t with
  | nil => simp [findBadValue] at h
  | cons q rest ih =>
    by_cases hq : 1 ≤ q.2 ∧ q.2 ≤ 8
    · simp [findBadValue, hq] at h
      rcases ih h with ⟨hm, hb⟩
      exact ⟨List.mem_cons_of_mem _ hm, hb⟩
    · simp [findBadValue, hq] at h
      subst h
      exact ⟨List.mem_cons_self _ _, hq⟩

lemma alphabet_len : _index_alphabet.length = 16 := rfl

lemma code_getD : ∀ d : Fin 16, alphabetCode (_index_alphabet.getD (d : Nat) []) = (d : Nat) := by
  decide

lemma nAux_symsAux : ∀ n i, nAux (symsAux n) i = n * 16 ^ i := by
  intro n
  induction n using Nat.strong_induction_on with
  | _ n ih =>
    intro i
    by_cases h : n = 0
    · subst h; simp [symsAux, nAux]
    · rw [symsAux]
      simp only [h, dite_false, nAux, alphabet_len]
      rw [ih (n / 16) (Nat.div_lt_self (Nat.pos_of_ne_zero h) (by decide)) (i + 1)]
      have hd : alphabetCode (_index_alphabet.getD (n % 16) []) = n % 16 :=
        code_getD ⟨n % 16, Nat.mod_lt _ (by decide)⟩
      rw [hd, pow_succ]
      conv_rhs => rw [← Nat.mod_add_div n 16]
      ring

lemma get_num_from_bond_bounds (b : List Char) :
    1 ≤ get_num_from_bond b ∧ get_num_from_bond b ≤ 3 := by
  unfold get_num_from_bond
  split_ifs <;> omega

lemma get_bond_ok (n : Int) (h1 : 1 ≤ n) (h2 : n ≤ 3) :
    ∃ b, get_bond_from_num n = .ok b := by
  interval_cases n
  · exact ⟨_, rfl⟩
  · exact ⟨_, rfl⟩
  · exact ⟨_, rfl⟩

lemma dropWhile_nil_of_not_mem : ∀ (s : List Char), '[' ∉ s →
    s.dropWhile (fun c => c ≠ '[') = []
  | [], _ => rfl
  | c :: cs, h => by
    have hc : c ≠ '[' := fun he => h (by simp [he])
    have hcs : '[' ∉ cs := fun hm => h (List.mem_cons_of_mem _ hm)
    have hd : (decide (c ≠ '[')) = true := by simp [hc]
    rw [List.dropWhile_cons, if_pos hd]
    exact dropWhile_nil_of_not_mem cs hcs

-- Claims ----------------------------------------------------------------------------

/-- C1: `decode("[C][=C][F]")` with the default active constraint table and no
override returns the SMILES string `"C=CF"` (and leaves the active table
unchanged). -/
theorem c1_decode_example :
    decoder default_bond_constraints "[C][=C][F]" none =
      (.ok (some "C=CF"), default_bond_constraints) := by rfl

/-- C2 counterexample: `decode("[C][C][Ring1]")` with the default constraint
table returns `"C=C"`, not the claimed `"C1CC1"` — no ring-closure digit
appears in the output at all. -/
theorem c2_counterexample :
    decoder default_bond_constraints "[C][C][Ring1]" none =
      (.ok (some "C=C"), default_bond_constraints) ∧
    (decoder default_bond_constraints "[C][C][Ring1]" none).1 ≠ .ok (some "C1CC1") := by
  exact ⟨by rfl, by decide⟩

/-- C2 amended: `decode("[C][C][Ring1]")` derives only two atoms (the ring
distance symbol is drawn from the exhausted stream, giving distance 1), so the
ring request targets two adjacent, already-bonded atoms and upgrades their
single bond to a double bond: the output is `"C=C"` with no closure digit.  A
3-membered ring closing back to the first derived atom, `"C1CC1"`, is produced
by `decode("[C][C][C][Ring1][Ring2]")`. -/
theorem c2_amended :
    decoder default_bond_constraints "[C][C][Ring1]" none =
      (.ok (some "C=C"), default_bond_constraints) ∧
    decoder default_bond_constraints "[C][C][C][Ring1][Ring2]" none =
      (.ok (some "C1CC1"), default_bond_constraints) := by
  exact ⟨by rfl, by rfl⟩

/-- C3 counterexample: for `[Branch1_2]` the number of index-codec symbols
that encode the branch length is `L = 1` (the first digit), but
`get_next_branch_state` at state 4 returns `(2, 2)` — it uses the trailing
type digit `2`, not `min(state - 1, L) = min(3, 1) = 1` as the claim states. -/
theorem c3_counterexample :
    get_next_branch_state "[Branch1_2]".data 4 = .ok (2, 2) ∧
      get_next_branch_state "[Branch1_2]".data 4 ≠
        .ok (min ((4 : Int) - 1) 1, 4 - min ((4 : Int) - 1) 1) := by
  exact ⟨by rfl, by decide⟩

/-- C3 amended: `get_next_branch_state` decodes the digit `X` at the
second-to-last character of `[BranchL_X]` (the branch *type*, not the count
`L` of index-codec symbols).  If `X` lies in `[1,3]`: for `2 ≤ state ≤ 8` it
returns branch-initial state `min(state - 1, X)` and continuation state
`state - min(state - 1, X)`; for `state` outside `[2,8]` it returns
`(-1, state)`.  It fails with the unknown-branch-symbol `ValueError` exactly
when the decoded digit lies outside `[1,3]`. -/
theorem c3_amended (sym : List Char) (state : Int) (c : Char)
    (h1 : pyGetI sym (-2) = .ok c) (h2 : c.isDigit = true) :
    ((1 ≤ charDigit c ∧ charDigit c ≤ 3) →
      ((2 ≤ state ∧ state ≤ 8 →
         get_next_branch_state sym state =
           .ok (min (state - 1) (charDigit c), state - min (state - 1) (charDigit c)))
       ∧ (¬(2 ≤ state ∧ state ≤ 8) →
           get_next_branch_state sym state = .ok (-1, state))))
    ∧ (¬(1 ≤ charDigit c ∧ charDigit c ≤ 3) →
        get_next_branch_state sym state = .error (.valueError "unknown branch symbol")) := by
  have hic : pyIntChar c = .ok (charDigit c) := by
    simp [pyIntChar, h2, charDigit]
  constructor
  · intro hr
    constructor
    · intro h28
      simp [get_next_branch_state, h1, hic, hr, h28]
    · intro h28
      simp [get_next_branch_state, h1, hic, hr, h28]
  · intro hr
    simp [get_next_branch_state, h1, hic, hr]

theorem c3_witness :
    get_next_branch_state "[Branch1_2]".data 4 =
      .ok (min ((4 : Int) - 1) (charDigit '2'), 4 - min ((4 : Int) - 1) (charDigit '2')) :=
  ((c3_amended "[Branch1_2]".data 4 '2' (by rfl) (by rfl)).1 (by decide)).1 (by decide)

/-- C4 counterexample: `decode("[]", constraints="octet_rule")` starting from
the default active table raises an uncaught `IndexError` and leaves the octet
table installed — the active table after the call is *not* the table active
before it, refuting the claim on the internal-error exit path. -/
theorem c4_counterexample :
    decoder default_bond_constraints "[]" (some "octet_rule") =
      (.error .indexError, octet_rule_bond_constraints) ∧
    octet_rule_bond_constraints ≠ default_bond_constraints := by
  exact ⟨by rfl, by decide⟩

/-- C4 amended: with a temporary constraint override (`octet_rule` or
`hypervalent`) and a valid pre-call active table, the prior table is restored
whenever the call returns normally — on a successful decode and on a caught
decoding `ValueError` — but not when a non-`ValueError` internal error
escapes the decoder. -/
theorem c4_amended (active : Table) (selfies : String) (c : String) (r : Option String)
    (hc : c = "octet_rule" ∨ c = "hypervalent")
    (hv : set_semantic_constraints (some active) = .ok active)
    (hr : (decoder active selfies (some c)).1 = .ok r) :
    (decoder active selfies (some c)).2 = active := by
  have hset1 : set_semantic_constraints (some octet_rule_bond_constraints) =
      .ok octet_rule_bond_constraints := by rfl
  have hset2 : set_semantic_constraints (some hypervalent_bond_constraints) =
      .ok hypervalent_bond_constraints := by rfl
  rcases hc with rfl | rfl
  · simp only [decoder, hset1, if_pos rfl] at hr ⊢
    unfold decoderBody at hr ⊢
    cases hta : translateAll octet_rule_bond_constraints (splitDots selfies.data) with
    | ok frags => simp [hta, hv]
    | error e =>
      cases e with
      | valueError m => simp [hta, hv]
      | indexError => rw [hta] at hr; exact Except.noConfusion hr
      | keyError => rw [hta] at hr; exact Except.noConfusion hr
      | fuel => rw [hta] at hr; exact Except.noConfusion hr
  · have hne : ("hypervalent" : String) ≠ "octet_rule" := by decide
    simp only [decoder, hset2, if_neg hne, if_pos rfl] at hr ⊢
    unfold decoderBody at hr ⊢
    cases hta : translateAll hypervalent_bond_constraints (splitDots selfies.data) with
    | ok frags => simp [hta, hv]
    | error e =>
      cases e with
      | valueError m => simp [hta, hv]
      | indexError => rw [hta] at hr; exact Except.noConfusion hr
      | keyError => rw [hta] at hr; exact Except.noConfusion hr
      | fuel => rw [hta] at hr; exact Except.noConfusion hr

theorem c4_witness :
    (decoder default_bond_constraints "[C]" (some "octet_rule")).2 =
      default_bond_constraints :=
  c4_amended default_bond_constraints "[C]" "octet_rule" (some "C")
    (Or.inl rfl) (by rfl) (by rfl)

/-- C5: `set_semantic_constraints` with a table fails (with the
invalid-constraint-table `ValueError`) if and only if the key `?` is absent or
some value lies outside `[1, 8]`; when it succeeds the new active table is
exactly the argument table; called with `none` it resets the active table to
the default preset.  (The Python global is modelled by threading the table:
an error means the assignment is never reached, so the active table is
unchanged.) -/
theorem c5_set_semantic_constraints (bc : Table) :
    ((∃ e, set_semantic_constraints (some bc) = .error e) ↔
      ((¬ ∃ p ∈ bc, p.1 = "?") ∨ ∃ p ∈ bc, ¬(1 ≤ p.2 ∧ p.2 ≤ 8)))
    ∧ (∀ t, set_semantic_constraints (some bc) = .ok t → t = bc)
    ∧ set_semantic_constraints none = .ok default_bond_constraints := by
  refine ⟨?_, ?_, rfl⟩
  · by_cases hk : tableHasKey bc "?" = true
    · cases hfb : findBadValue bc with
      | none =>
        simp only [set_semantic_constraints, hk, if_true, hfb]
        constructor
        · rintro ⟨e, he⟩; exact absurd he (by simp)
        · rintro (hno | ⟨p, hp, hbad⟩)
          · exact absurd ((tableHasKey_iff bc "?").mp hk) hno
          · exact absurd ((findBadValue_eq_none_iff bc).mp hfb p hp) hbad
      | some p =>
        simp only [set_semantic_constraints, hk, if_true, hfb]
        constructor
        · intro _
          rcases findBadValue_some bc p hfb with ⟨hm, hb⟩
          exact Or.inr ⟨p, hm, hb⟩
        · intro _; exact ⟨_, rfl⟩
    · simp only [set_semantic_constraints, hk, if_false]
      constructor
      · intro _
        refine Or.inl ?_
        intro hex
        exact hk ((tableHasKey_iff bc "?").mpr hex)
      · intro _; exact ⟨_, rfl⟩
  · intro t ht
    by_cases hk : tableHasKey bc "?" = true
    · cases hfb : findBadValue bc with
      | none => exact (by simpa [set_semantic_constraints, hk, hfb] using ht : bc = t).symm
      | some p => simp [set_semantic_constraints, hk, hfb] at ht
    · simp [set_semantic_constraints, hk] at ht

theorem c5_witness :
    ∃ e, set_semantic_constraints (some [("?", 9)]) = .error e :=
  (c5_set_semantic_constraints [("?", 9)]).1.mpr (Or.inr ⟨("?", 9), by decide, by decide⟩)

/-- C6: for every natural number `n`, `get_n_from_symbols` applied to
`get_symbols_from_n n` returns `n` (round-trip on the integer value, which in
particular covers `[0, 4095]` and `[0, 16^k - 1]` for every `k`); and
`get_symbols_from_n 0` is the one-element list holding the first alphabet
symbol `[C]`, not the empty sequence. -/
theorem c6_index_roundtrip :
    (∀ n : Nat, get_n_from_symbols (get_symbols_from_n n) = n)
    ∧ get_symbols_from_n 0 = ["[C]".data] := by
  constructor
  · intro n
    by_cases h : n = 0
    · subst h; rfl
    · unfold get_symbols_from_n
      rw [if_neg h]
      unfold get_n_from_symbols
      rw [List.reverse_reverse]
      simpa using nAux_symsAux n 0
  · rfl

theorem c6_witness : get_n_from_symbols (get_symbols_from_n 4095) = 4095 :=
  c6_index_roundtrip.1 4095

/-- C7: for a well-formed non-epsilon atom symbol (one whose bond extraction
and atom parse succeed) and a derivation state `state ≥ 0`,
`get_next_state` fails — with the excess-hydrogens `ValueError` — if and only
if the parsed hydrogen count exceeds the atom's maximum bond count from the
active table (defaulting to the `?` entry), or equals it while `state > 0`; in
every other case it returns a fragment and a next state without error. -/
theorem c7_excess_hydrogens (tbl : Table) (sym : List Char) (state : Int)
    (bond ss el : List Char) (hcnt chg q : Int)
    (hne : sym ≠ "[epsilon]".data)
    (hst : 0 ≤ state)
    (hs : symbolToSmiles sym = .ok (bond, ss))
    (hp : parse_atom_symbol ss = .ok (el, hcnt, chg))
    (hq : pyDictGet tbl "?" = .ok q) :
    ((∃ e, get_next_state tbl sym state = .error e) ↔
      (hcnt > pyDictGetD tbl (String.mk (if chg = 0 then el else el ++ formatSigned chg)) q ∨
       (hcnt = pyDictGetD tbl (String.mk (if chg = 0 then el else el ++ formatSigned chg)) q ∧
        state > 0)))
    ∧ ((hcnt > pyDictGetD tbl (String.mk (if chg = 0 then el else el ++ formatSigned chg)) q ∨
       (hcnt = pyDictGetD tbl (String.mk (if chg = 0 then el else el ++ formatSigned chg)) q ∧
        state > 0)) →
      get_next_state tbl sym state =
        .error (.valueError "too many Hs in symbol; consider adjusting bond constraints")) := by
  set M := pyDictGetD tbl (String.mk (if chg = 0 then el else el ++ formatSigned chg)) q with hM
  by_cases hcond : hcnt > M ∨ (hcnt = M ∧ state > 0)
  · constructor
    · simp only [get_next_state, hne, hs, hp, hq, ← hM, hcond]
      simp [hcond]
    · intro _
      simp only [get_next_state, hne, hs, hp, hq, ← hM]
      simp [hcond]
  · have hok : ∃ r, get_next_state tbl sym state = .ok r := by
      simp only [get_next_state, hne, hs, hp, hq, ← hM]
      simp only [if_neg hne, hcond, if_false]
      by_cases h0 : state = 0
      · simp [h0]
      · have hst1 : 1 ≤ state := by omega
        simp only [if_neg h0]
        by_cases hbn : get_num_from_bond bond > min state (M - hcnt)
        · have hlt : hcnt < M := by
            push_neg at hcond
            rcases hcond with ⟨hle, himp⟩
            by_contra hge
            push_neg at hge
            have heq : hcnt = M := le_antisymm hle hge
            have := himp heq
            omega
          have hcap1 : 1 ≤ min state (M - hcnt) := le_min hst1 (by omega)
          have hcap3 : min state (M - hcnt) ≤ 3 := by
            rcases (get_num_from_bond_bounds bond) with ⟨hb1, hb3⟩
            omega
          obtain ⟨b, hb⟩ := get_bond_ok _ hcap1 hcap3
          simp [hbn, hb]
        · simp [hbn]
    obtain ⟨r, hr⟩ := hok
    constructor
    · rw [hr]
      constructor
      · rintro ⟨e, he⟩; exact absurd he (by simp)
      · intro hc; exact absurd hc hcond
    · intro hc; exact absurd hc hcond

theorem c7_witness :
    ¬ ∃ e, get_next_state default_bond_constraints "[C]".data 0 = .error e :=
  fun hex =>
    absurd
      ((c7_excess_hydrogens default_bond_constraints "[C]".data 0 [] "C".data "C".data
          0 0 8 (by decide) (by decide) (by rfl) (by rfl) (by rfl)).1.mp hex)
      (by decide)

/-- C8: when the walker loop meets a branch symbol at state `0` or `1` (or a
ring symbol at state `0`), the construct is skipped entirely: no
length-prefix or body symbols are consumed from the stream, nothing is
appended to the derived-atom list, branch map, or ring list, and the loop
continues with the state unchanged — the iteration is identical to one that
merely advances to the next symbol. -/
theorem c8_leniency (tbl : Table) (f : Nat) (curr : List Char) (stream : Stream')
    (state : Int) (derived : List DAtom) (prev_idx : Int)
    (branches : List (Nat × Nat)) (rings : List RingTup) :
    ((0 ≤ state → state ≤ 1 → containsSub "Branch".data curr = true →
      (∃ bi ns, get_next_branch_state curr state = .ok (bi, ns)) →
      deriveLoop tbl (f + 1) curr stream state derived prev_idx branches rings =
        match next' stream with
        | .error e => .error e
        | .ok (c2, s2) => deriveLoop tbl f c2 s2 state derived prev_idx branches rings))
    ∧ (state = 0 → containsSub "Branch".data curr = false →
        containsSub "Ring".data curr = true →
        deriveLoop tbl (f + 1) curr stream state derived prev_idx branches rings =
          match next' stream with
          | .error e => .error e
          | .ok (c2, s2) => deriveLoop tbl f c2 s2 state derived prev_idx branches rings) := by
  constructor
  · rintro h0 h1 hb ⟨bi, ns, hok⟩
    have hcne : curr ≠ [] := by
      intro hc; subst hc; exact absurd hb (by decide)
    have hres : get_next_branch_state curr state = .ok (-1, state) := by
      cases hg : pyGetI curr (-2) with
      | error e =>
        simp only [get_next_branch_state, hg] at hok
        exact Except.noConfusion hok
      | ok c =>
        cases hic : pyIntChar c with
        | error e =>
          simp only [get_next_branch_state, hg, hic] at hok
          exact Except.noConfusion hok
        | ok bt =>
          by_cases hr : 1 ≤ bt ∧ bt ≤ 3
          · have h28 : ¬(2 ≤ state ∧ state ≤ 8) := by omega
            simp only [get_next_branch_state, hg, hic]
            simp [hr, h28]
          · simp only [get_next_branch_state, hg, hic] at hok
            simp [hr] at hok
    simp only [deriveLoop]
    rw [if_neg (by push_neg; exact ⟨hcne, by omega⟩)]
    simp only [hb, if_true, hres]
    rw [if_pos h1]
  · intro h0 hb hr
    have hcne : curr ≠ [] := by
      intro hc; subst hc; exact absurd hr (by decide)
    simp only [deriveLoop]
    rw [if_neg (by push_neg; exact ⟨hcne, by omega⟩)]
    simp only [hb, hr, Bool.false_eq_true, if_false, if_true]
    rw [if_pos h0]

theorem c8_witness :
    deriveLoop default_bond_constraints 5 "[Branch1_1]".data
        ⟨["[C]".data], none⟩ 1 [] (-1) [] [] =
      deriveLoop default_bond_constraints 4 "[C]".data ⟨[], none⟩ 1 [] (-1) [] [] := by
  have h := (c8_leniency default_bond_constraints 4 "[Branch1_1]".data
      ⟨["[C]".data], none⟩ 1 [] (-1) [] []).1
    (by decide) (by decide) (by decide) ⟨-1, 1, by rfl⟩
  exact h.trans (by rfl)

/-- C9: `decode("[]")` (whose only symbol has empty inner text, so
`parse_atom_symbol` indexes an empty string) raises an out-of-range
`IndexError` that escapes the decoder uncaught — the `except` boundary
intercepts only `ValueError` — instead of returning the `None` failure
sentinel; `decoder` is therefore not total over all input strings. -/
theorem c9_uncaught_index_error :
    decoder default_bond_constraints "[]" none =
      (.error .indexError, default_bond_constraints) ∧
    (Except.error PyErr.indexError : Except PyErr (Option String)) ≠ .ok none := by
  exact ⟨by rfl, by decide⟩

/-- C10: a fragment containing no `[` character produces no tokens and
translates to the empty string without error (characters before the first `[`
are skipped by the tokenizer's initial search); the orchestrator then drops
the empty fragment, so `decode("C")` returns `""` rather than failing. -/
theorem c10_no_bracket_fragment :
    (∀ (tbl : Table) (s : List Char), '[' ∉ s → _translate_selfies tbl s = .ok [])
    ∧ decoder default_bond_constraints "C" none =
        (.ok (some ""), default_bond_constraints) := by
  constructor
  · intro tbl s h
    have hd : s.dropWhile (fun c => c ≠ '[') = [] := dropWhile_nil_of_not_mem s h
    simp only [_translate_selfies, _parse_selfies, hd]
    rfl
  · rfl

theorem c10_witness :
    ('[' ∉ ['C']) ∧
      _translate_selfies default_bond_constraints ['C'] = .ok [] :=
  ⟨by decide, c10_no_bracket_fragment.1 default_bond_constraints ['C'] (by decide)⟩

end Selfies
